import Mathlib

/-!
Shallow embedding of the annotation and image-compositing engine of
`src/annotation.py` (classes `AnnotationManager`, `AnnotationWidget`,
`AnnotationDialog`).

Raster images are modelled as a base pixel buffer (identified by `baseId`,
with its dimensions) together with the ordered list of drawing commands that
have been composited onto it.  A drawing command carries the full painter
state that determines its rendering (pen, font, colors), so two images are
pixel-identical at this level of abstraction exactly when they are equal.
Python floats are modelled as rationals, real-valued trigonometry as real
numbers, and Python `int()` as truncation toward zero.  Qt signals are
modelled as an explicit list of emitted events returned next to the result.
Exceptions inside the Python `try:` blocks are modelled by an explicit
`exc : Option String` oracle argument: `some msg` means the body of the
`try:` raises an exception with text `msg`.
-/

/-- Integer point, Qt `QPoint`; image-space pixel coordinates. -/
structure QPoint where
  x : Int
  y : Int
deriving DecidableEq

/-- RGBA color, Qt `QColor`; equality by channel values. -/
structure QColor where
  r : Nat
  g : Nat
  b : Nat
  a : Nat
deriving DecidableEq

/-- `QColor("#FF0000")`. -/
def colorRed : QColor := ⟨255, 0, 0, 255⟩

/-- `QColor("#FFFFFF")`. -/
def colorWhite : QColor := ⟨255, 255, 255, 255⟩

/-- Qt pen cap styles. -/
inductive PenCapStyle where
  | squareCap
  | flatCap
  | roundCap
deriving DecidableEq

/-- Qt pen join styles. -/
inductive PenJoinStyle where
  | bevelJoin
  | miterJoin
  | roundJoin
deriving DecidableEq

/-- Qt pen: color, width, cap and join style (pen style is always SolidLine
in this code base, so it is not tracked). -/
structure QPen where
  color : QColor
  width : Int
  cap : PenCapStyle
  join : PenJoinStyle
deriving DecidableEq

/-- `QPen(color, width)`: Qt defaults the cap style to `SquareCap` and the
join style to `BevelJoin`. -/
def QPen.ofColorWidth (c : QColor) (w : Int) : QPen :=
  ⟨c, w, .squareCap, .bevelJoin⟩

/-- The pen built by `AnnotationWidget._draw_shape`:
`QPen(color, width, Qt.SolidLine, Qt.RoundCap, Qt.RoundJoin)`. -/
def QPen.roundStyle (c : QColor) (w : Int) : QPen :=
  ⟨c, w, .roundCap, .roundJoin⟩

/-- Qt rectangle, stored as x, y, width, height. -/
structure QRect where
  x : Int
  y : Int
  w : Int
  h : Int
deriving DecidableEq

/-- `QRect(topLeft, bottomRight)` from two `QPoint`s. -/
def QRect.ofPoints (p1 p2 : QPoint) : QRect :=
  ⟨p1.x, p1.y, p2.x - p1.x + 1, p2.y - p1.y + 1⟩

/-- Qt font: family, point size, weight (`QFont.Bold = 75`). -/
structure QFont where
  family : String
  pointSize : Int
  weight : Int
deriving DecidableEq

/-- One painter drawing command, carrying the painter state that determines
its rendered pixels. -/
inductive DrawCmd where
  | line (pen : QPen) (a b : QPoint)
  | rect (pen : QPen) (r : QRect)
  | fillRect (r : QRect) (c : QColor)
  | text (pos : QPoint) (font : QFont) (color : QColor) (s : String)
  | polyline (pen : QPen) (pts : List QPoint)
deriving DecidableEq

/-- `QImage`: a base pixel buffer plus the drawing commands composited onto
it, in order.  `copy()` has value semantics here. -/
structure QImage where
  width : Int
  height : Int
  baseId : Nat
  cmds : List DrawCmd
deriving DecidableEq

/-- Compositing a list of painter commands onto an image. -/
def QImage.draw (img : QImage) (cs : List DrawCmd) : QImage :=
  { img with cmds := img.cmds ++ cs }

/-- The enumeration `AnnotationTool`. -/
inductive AnnotationTool where
  | none
  | arrow
  | rectangle
  | freehand
deriving DecidableEq

/-- The dataclass `AnnotationData`: one completed or in-progress stroke. -/
structure AnnotationData where
  tool : AnnotationTool
  points : List QPoint
  color : QColor
  line_width : Int
deriving DecidableEq

/-- The Qt signals emitted by the annotation classes that the claims
observe. -/
inductive AnnEvent where
  | annotation_added (kind : String)
  | annotation_failed (msg : String)
  | drawing_completed
deriving DecidableEq

/-- The persisted key-value settings consumed by this module
(`config_manager.get(key, default)`); `Option.none` means the key is absent
and the call returns its default. -/
structure ConfigStore where
  screenshot_font_size : Option Int
  screenshot_font_color : Option QColor
  annotation_default_color : Option QColor
  annotation_line_width : Option Int
  annotation_arrow_size : Option Int
deriving DecidableEq

/-- A store with every key absent: every `get` returns its default. -/
def ConfigStore.empty : ConfigStore := ⟨none, none, none, none, none⟩

/-- The state of `AnnotationManager` set up in `__init__`. -/
structure AnnotationManager where
  font_size : Int
  font_color : QColor
  default_annotation_color : QColor
  line_width : Int
  arrow_size : Int
deriving DecidableEq

/-- `AnnotationManager.__init__`: reads the five settings with their
defaults 16, "#FFFFFF", "#FF0000", 3, 10. -/
def AnnotationManager.init (cfg : ConfigStore) : AnnotationManager :=
  { font_size := cfg.screenshot_font_size.getD 16
    font_color := cfg.screenshot_font_color.getD colorWhite
    default_annotation_color := cfg.annotation_default_color.getD colorRed
    line_width := cfg.annotation_line_width.getD 3
    arrow_size := cfg.annotation_arrow_size.getD 10 }

/-- Python `int(x)` on a real number: truncation toward zero. -/
noncomputable def pyInt (x : ℝ) : Int :=
  if 0 ≤ x then ⌊x⌋ else ⌈x⌉

/-- Python `math.atan2 y x`, i.e. the argument of the complex number
`x + y·i` (both return 0 at the origin and π on the negative x-axis). -/
noncomputable def atan2 (y x : ℝ) : ℝ :=
  Complex.arg ⟨x, y⟩

/-- An ASCII whitespace character, as Python `str.strip()` removes (the
full Python set also holds rarer unicode spaces, irrelevant here). -/
def isSpaceChar (c : Char) : Bool :=
  c = ' ' ∨ c = '\t' ∨ c = '\n' ∨ c = '\r'

/-- Python `s.strip()`: drop whitespace from both ends.  Built from
structural list recursion so that concrete instances evaluate inside the
kernel. -/
def pyStrip (s : String) : String :=
  ⟨((s.data.dropWhile isSpaceChar).reverse.dropWhile isSpaceChar).reverse⟩

/-- `image.copy()`: value semantics, a deep clone is equal by value. -/
def QImage.copy (img : QImage) : QImage := img

/-- One iteration of the `for i, text_line in enumerate(text_lines)` loop of
`AnnotationManager.add_text_overlay`: a blank (whitespace-only) line draws
nothing; a non-blank line at index `i` draws the semi-transparent black
background rectangle, then the text at baseline
`y_position = margin + (i+1) * line_height`.  `metrics` abstracts
`painter.fontMetrics().boundingRect`. -/
def overlayLineCmds (metrics : QFont → String → QRect) (font : QFont)
    (text_color : QColor) (line_height : Int) (i : Nat) (text_line : String) :
    List DrawCmd :=
  if pyStrip text_line = "" then []
  else
    let margin : Int := 10
    let y_position : Int := margin + ((i : Int) + 1) * line_height
    let text_rect := metrics font text_line
    let background_rect : QRect :=
      ⟨margin - 5, y_position - text_rect.h, text_rect.w + 10, text_rect.h + 5⟩
    [.fillRect background_rect ⟨0, 0, 0, 128⟩,
     .text ⟨margin, y_position⟩ font text_color text_line]

/-- The whole `enumerate` loop of `add_text_overlay`, starting at index
`i`. -/
def overlayLoop (metrics : QFont → String → QRect) (font : QFont)
    (text_color : QColor) (line_height : Int) :
    Nat → List String → List DrawCmd
  | _, [] => []
  | i, text_line :: rest =>
      overlayLineCmds metrics font text_color line_height i text_line ++
        overlayLoop metrics font text_color line_height (i + 1) rest

/-- `AnnotationManager.add_text_overlay(image, text_lines, font_size)`.
The `exc` oracle models an exception raised inside the `try:` body; the
`except` clause returns the input image and emits `annotation_failed`. -/
def AnnotationManager.add_text_overlay (m : AnnotationManager)
    (metrics : QFont → String → QRect) (image : QImage)
    (text_lines : List String) (font_size : Option Int)
    (exc : Option String) : QImage × List AnnEvent :=
  match exc with
  | some e => (image, [.annotation_failed ("添加文本叠加失败: " ++ e)])
  | none =>
      let fs := font_size.getD m.font_size
      let font : QFont := ⟨"Arial", fs, 75⟩
      let line_height := fs + 5
      (image.copy.draw (overlayLoop metrics font m.font_color line_height 0 text_lines),
       [])

/-- The two text lines built by
`AnnotationManager.create_screenshot_with_info`. -/
def screenshotInfoLines (video_name timestamp : String) : List String :=
  ["文件: " ++ video_name, "时间: " ++ timestamp]

/-- `AnnotationManager.create_screenshot_with_info(image, video_name,
timestamp)`: builds the two info lines and delegates to
`add_text_overlay`.  `exc_outer` models an exception in its own `try:`
body, `exc_overlay` one inside the delegated `add_text_overlay` (which
catches it itself). -/
def AnnotationManager.create_screenshot_with_info (m : AnnotationManager)
    (metrics : QFont → String → QRect) (image : QImage)
    (video_name timestamp : String) (exc_overlay exc_outer : Option String) :
    QImage × List AnnEvent :=
  match exc_outer with
  | some e => (image, [.annotation_failed ("创建带信息截图失败: " ++ e)])
  | none =>
      m.add_text_overlay metrics image
        (screenshotInfoLines video_name timestamp) none exc_overlay

/-- The arrow-head wing points of `AnnotationManager.draw_arrow` (and of
`AnnotationWidget._draw_arrow_on_painter`, which is textually the same
computation): shaft angle `atan2(dy, dx)`, head half-angle `pi/6`, wing
coordinates truncated to `int`. -/
noncomputable def arrowHeadPoints (start_point end_point : QPoint)
    (arrow_length : Int) : QPoint × QPoint :=
  let dx : ℝ := ((end_point.x - start_point.x : Int) : ℝ)
  let dy : ℝ := ((end_point.y - start_point.y : Int) : ℝ)
  let angle := atan2 dy dx
  let arrow_angle := Real.pi / 6
  (⟨pyInt ((end_point.x : ℝ) - (arrow_length : ℝ) * Real.cos (angle - arrow_angle)),
    pyInt ((end_point.y : ℝ) - (arrow_length : ℝ) * Real.sin (angle - arrow_angle))⟩,
   ⟨pyInt ((end_point.x : ℝ) - (arrow_length : ℝ) * Real.cos (angle + arrow_angle)),
    pyInt ((end_point.y : ℝ) - (arrow_length : ℝ) * Real.sin (angle + arrow_angle))⟩)

/-- The three painter commands of an arrow: main line, then the two head
wings, all with the same pen. -/
noncomputable def arrowCmds (pen : QPen) (arrow_length : Int)
    (start_point end_point : QPoint) : List DrawCmd :=
  let heads := arrowHeadPoints start_point end_point arrow_length
  [.line pen start_point end_point,
   .line pen end_point heads.1,
   .line pen end_point heads.2]

/-- `AnnotationManager.draw_arrow(image, start_point, end_point, color,
line_width)`: composites the three arrow segments with
`QPen(color, line_width)` and head length `self.arrow_size` onto a copy of
the image, emitting `annotation_added("arrow")`. -/
noncomputable def AnnotationManager.draw_arrow (m : AnnotationManager)
    (image : QImage) (start_point end_point : QPoint)
    (color : Option QColor) (line_width : Option Int) (exc : Option String) :
    QImage × List AnnEvent :=
  match exc with
  | some e => (image, [.annotation_failed ("绘制箭头失败: " ++ e)])
  | none =>
      let c := color.getD m.default_annotation_color
      let w := line_width.getD m.line_width
      let pen := QPen.ofColorWidth c w
      (image.copy.draw (arrowCmds pen m.arrow_size start_point end_point),
       [.annotation_added "arrow"])

/-- `AnnotationManager.draw_rectangle(image, start_point, end_point, color,
line_width, filled)`. -/
def AnnotationManager.draw_rectangle (m : AnnotationManager)
    (image : QImage) (start_point end_point : QPoint)
    (color : Option QColor) (line_width : Option Int) (filled : Bool)
    (exc : Option String) : QImage × List AnnEvent :=
  match exc with
  | some e => (image, [.annotation_failed ("绘制矩形失败: " ++ e)])
  | none =>
      let c := color.getD m.default_annotation_color
      let w := line_width.getD m.line_width
      let rect := QRect.ofPoints start_point end_point
      (image.copy.draw
        (if filled then [.fillRect rect c]
         else [.rect (QPen.ofColorWidth c w) rect]),
       [.annotation_added "rectangle"])

/-- The `for i in range(len(points) - 1): drawLine(points[i], points[i+1])`
loop of `AnnotationManager.draw_freehand` (every index the loop reads is in
bounds, so the `getD` default is never used). -/
def freehandSegs (pen : QPen) (points : List QPoint) : List DrawCmd :=
  (List.range (points.length - 1)).map fun i =>
    .line pen (points.getD i ⟨0, 0⟩) (points.getD (i + 1) ⟨0, 0⟩)

/-- `AnnotationManager.draw_freehand(image, points, color, line_width)`:
fewer than 2 points returns the input image unchanged (before touching any
painting machinery, hence the early return is not subject to the `exc`
oracle); otherwise the consecutive segments are drawn with a round-cap,
round-join pen on a copy. -/
def AnnotationManager.draw_freehand (m : AnnotationManager)
    (image : QImage) (points : List QPoint)
    (color : Option QColor) (line_width : Option Int) (exc : Option String) :
    QImage × List AnnEvent :=
  if points.length < 2 then (image, [])
  else
    match exc with
    | some e => (image, [.annotation_failed ("绘制自由线条失败: " ++ e)])
    | none =>
        let c := color.getD m.default_annotation_color
        let w := line_width.getD m.line_width
        let pen := QPen.roundStyle c w
        (image.copy.draw (freehandSegs pen points),
         [.annotation_added "freehand"])

/-- Python `int(q)` on a float (here: rational): truncation toward zero. -/
def pyIntQ (q : ℚ) : Int :=
  if 0 ≤ q then ⌊q⌋ else ⌈q⌉

/-- Mouse buttons relevant to the widget's event handlers. -/
inductive MouseButton where
  | left
  | right
  | middle
deriving DecidableEq

/-- The state of `AnnotationWidget`: the image being annotated, scale
factor, the pointer-gesture drawing state, the committed shape list and the
current tool settings.  (The fixed widget size set by `_apply_scale` and
the Qt repaint machinery carry no model state.) -/
structure AnnotationWidget where
  image : QImage
  original_image : QImage
  scale_factor : ℚ
  drawing : Bool
  start_point : QPoint
  end_point : QPoint
  current_shape : Option AnnotationData
  shapes : List AnnotationData
  current_tool : AnnotationTool
  current_color : QColor
  line_width : Int
deriving DecidableEq

/-- `AnnotationWidget.__init__(image)`: copies the image twice, scale 1.0,
not drawing, zero points, no in-progress shape, empty shape list, tool
`NONE`, color and line width read from the config store (defaults
"#FF0000" and 3). -/
def AnnotationWidget.init (cfg : ConfigStore) (image : QImage) :
    AnnotationWidget :=
  { image := image.copy
    original_image := image.copy
    scale_factor := 1
    drawing := false
    start_point := ⟨0, 0⟩
    end_point := ⟨0, 0⟩
    current_shape := none
    shapes := []
    current_tool := .none
    current_color := cfg.annotation_default_color.getD colorRed
    line_width := cfg.annotation_line_width.getD 3 }

/-- `QPoint(int(event.pos().x() / self.scale_factor),
int(event.pos().y() / self.scale_factor))`: a display-space position
converted to image space. -/
def AnnotationWidget.toImagePos (wdg : AnnotationWidget) (pos : QPoint) :
    QPoint :=
  ⟨pyIntQ ((pos.x : ℚ) / wdg.scale_factor),
   pyIntQ ((pos.y : ℚ) / wdg.scale_factor)⟩

/-- `AnnotationWidget.set_tool(tool)` (the `tool_changed` signal is not
tracked: no claim observes it). -/
def AnnotationWidget.set_tool (wdg : AnnotationWidget)
    (tool : AnnotationTool) : AnnotationWidget :=
  if wdg.current_tool ≠ tool then { wdg with current_tool := tool } else wdg

/-- `AnnotationWidget.set_scale_factor(factor)`: clamps the factor to
[0.05, 8.0], then stores it only when it differs from the current scale by
more than `1e-3`. -/
def AnnotationWidget.set_scale_factor (wdg : AnnotationWidget) (factor : ℚ) :
    AnnotationWidget :=
  let factor' := max (1/20) (min 8 factor)
  if |wdg.scale_factor - factor'| > 1/1000 then
    { wdg with scale_factor := factor' }
  else wdg

/-- `AnnotationWidget.fit_to_size(max_width, max_height)`: scale to fit the
box, never upscaling; substitute 0.1 for a non-positive computed scale;
apply through `set_scale_factor`.  (`isNull` of the model image means a
zero-area buffer, so the first guard is subsumed by the `iw == 0` /
`ih == 0` guard.) -/
def AnnotationWidget.fit_to_size (wdg : AnnotationWidget)
    (max_width max_height : Int) : AnnotationWidget :=
  let iw := wdg.original_image.width
  let ih := wdg.original_image.height
  if iw = 0 ∨ ih = 0 then wdg
  else
    let scale_w : ℚ := (max_width : ℚ) / (iw : ℚ)
    let scale_h : ℚ := (max_height : ℚ) / (ih : ℚ)
    let scale := min scale_w scale_h
    let scale := min 1 scale
    let scale := if scale ≤ 0 then 1/10 else scale
    wdg.set_scale_factor scale

/-- `AnnotationWidget.mousePressEvent(event)`: only a left-button press
with a tool selected starts a gesture; it records the (image-space) start
and end point and creates the in-progress shape with that single point. -/
def AnnotationWidget.mousePressEvent (wdg : AnnotationWidget)
    (button : MouseButton) (pos : QPoint) : AnnotationWidget :=
  if button = .left ∧ wdg.current_tool ≠ .none then
    let p := wdg.toImagePos pos
    { wdg with
      drawing := true
      start_point := p
      end_point := p
      current_shape := some
        ⟨wdg.current_tool, [p], wdg.current_color, wdg.line_width⟩ }
  else wdg

/-- `AnnotationWidget.mouseMoveEvent(event)`: while drawing, updates the
live end point; for the freehand tool, also appends the point to the
in-progress shape. -/
def AnnotationWidget.mouseMoveEvent (wdg : AnnotationWidget) (pos : QPoint) :
    AnnotationWidget :=
  if wdg.drawing = true ∧ wdg.current_tool ≠ .none then
    let p := wdg.toImagePos pos
    let wdg' := { wdg with end_point := p }
    if wdg.current_tool = .freehand then
      { wdg' with
        current_shape := wdg'.current_shape.map fun s =>
          { s with points := s.points ++ [p] } }
    else wdg'
  else wdg

/-- `AnnotationWidget.mouseReleaseEvent(event)`: a left-button release
while drawing ends the gesture; for arrow/rectangle the final point is
appended to the in-progress shape; the in-progress shape — whenever one
exists — is appended to `shapes`; `drawing_completed` is emitted. -/
def AnnotationWidget.mouseReleaseEvent (wdg : AnnotationWidget)
    (button : MouseButton) (pos : QPoint) :
    AnnotationWidget × List AnnEvent :=
  if button = .left ∧ wdg.drawing = true then
    let p := wdg.toImagePos pos
    let w1 := { wdg with drawing := false, end_point := p }
    let w2 :=
      if w1.current_tool = .arrow ∨ w1.current_tool = .rectangle then
        { w1 with
          current_shape := w1.current_shape.map fun s =>
            { s with points := s.points ++ [p] } }
      else w1
    let w3 :=
      match w2.current_shape with
      | some s => { w2 with shapes := w2.shapes ++ [s] }
      | none => w2
    ({ w3 with current_shape := none }, [.drawing_completed])
  else (wdg, [])

/-- `AnnotationWidget._draw_shape(painter, shape_data)` as the painter
commands it issues: a round-cap round-join solid pen of the shape's color
and width, then a dispatch on the tool requiring at least 2 points
(anything else draws nothing).  `arrow_size` is
`config_manager.get("annotation.arrow_size", 10)` read at call time by
`_draw_arrow_on_painter`. -/
noncomputable def AnnotationWidget.draw_shape_cmds (arrow_size : Int)
    (shape_data : AnnotationData) : List DrawCmd :=
  let pen := QPen.roundStyle shape_data.color shape_data.line_width
  match shape_data.tool, shape_data.points with
  | .arrow, p0 :: p1 :: _ => arrowCmds pen arrow_size p0 p1
  | .rectangle, p0 :: p1 :: _ => [.rect pen (QRect.ofPoints p0 p1)]
  | .freehand, p0 :: p1 :: rest => [.polyline pen (p0 :: p1 :: rest)]
  | _, _ => []

/-- `AnnotationDialog.get_annotated_image()`: repaints every committed
shape of the widget, in list order, onto a fresh copy of the widget's
original image. -/
noncomputable def AnnotationDialog.get_annotated_image (arrow_size : Int)
    (wdg : AnnotationWidget) : QImage :=
  wdg.shapes.foldl
    (fun img s => img.draw (AnnotationWidget.draw_shape_cmds arrow_size s))
    wdg.original_image.copy

/-! ### Concrete fixtures used by counterexamples and witnesses -/

/-- A manager built over an empty config store: all settings at their
defaults. -/
def testManager : AnnotationManager := AnnotationManager.init ConfigStore.empty

/-- An 800x600 base image with nothing composited yet. -/
def testImage : QImage := ⟨800, 600, 0, []⟩

/-- A concrete font-metrics oracle: every glyph 8px wide, every line's
bounding box 20px tall sitting on the baseline. -/
def testMetrics : QFont → String → QRect :=
  fun _ s => ⟨0, -20, 8 * (s.length : Int), 20⟩

/-- A widget over a 100x100 image, fresh from `__init__`. -/
def testWidget100 : AnnotationWidget :=
  AnnotationWidget.init ConfigStore.empty ⟨100, 100, 0, []⟩

/-! ### Spec-side formulations (each from the spec's words, for comparison
with the source-translated definitions) -/

/-- Spec §4.1 arrow-head formula: shaft angle `θ = atan2(Ey−Sy, Ex−Sx)`,
wing points `E − L·(cos(θ∓30°), sin(θ∓30°))` with the fixed half-angle
`30° = π/6`, coordinates truncated to integers. -/
noncomputable def specArrowWings (S E : QPoint) (L : Int) : QPoint × QPoint :=
  let θ := atan2 ((E.y - S.y : Int) : ℝ) ((E.x - S.x : Int) : ℝ)
  let halfAngle := Real.pi / 6
  (⟨pyInt ((E.x : ℝ) - (L : ℝ) * Real.cos (θ - halfAngle)),
    pyInt ((E.y : ℝ) - (L : ℝ) * Real.sin (θ - halfAngle))⟩,
   ⟨pyInt ((E.x : ℝ) - (L : ℝ) * Real.cos (θ + halfAngle)),
    pyInt ((E.y : ℝ) - (L : ℝ) * Real.sin (θ + halfAngle))⟩)

/-- The background plate exactly as claim C6 words it: "sized to the text
bounding box plus a 5px horizontal pad" — bbox height unchanged. -/
def claimPlateRect (y : Int) (r : QRect) : QRect :=
  ⟨10 - 5, y - r.h, r.w + 10, r.h⟩

/-- Spec §4.1 text-overlay layout for line `i` (0-indexed over the full
list), with the plate size amended to what the source draws: the bounding
box widened by 5px on each side and made 5px taller at the bottom.
Baseline `y = 10 + (i+1)·(fontSize+5)`; blank lines draw nothing but keep
their index slot. -/
def specOverlayLine (metrics : QFont → String → QRect) (font : QFont)
    (text_color : QColor) (font_size : Int) (i : Nat) (line : String) :
    List DrawCmd :=
  if pyStrip line = "" then []
  else
    let y : Int := 10 + ((i : Int) + 1) * (font_size + 5)
    let r := metrics font line
    [.fillRect ⟨10 - 5, y - r.h, r.w + 10, r.h + 5⟩ ⟨0, 0, 0, 128⟩,
     .text ⟨10, y⟩ font text_color line]

/-- Spec §4.4 scaling policy for `setScaleFactor`: clamp to [0.05, 8.0]. -/
def specClampScale (f : ℚ) : ℚ := max (1/20) (min 8 f)

/-- Spec §4.4 scaling policy for `fitToSize`: `min(maxW/imageW,
maxH/imageH)`, clamped to at most 1.0, substituting 0.1 when the computed
scale is non-positive. -/
def specFitScale (iw ih mw mh : Int) : ℚ :=
  let s := min ((mw : ℚ) / (iw : ℚ)) ((mh : ℚ) / (ih : ℚ))
  let s := min 1 s
  if s ≤ 0 then 1/10 else s

/-- The endpoints of a line-drawing command, forgetting the pen: two
commands with the same endpoints draw the same segment geometry. -/
def lineEndpoints : DrawCmd → Option (QPoint × QPoint)
  | .line _ a b => some (a, b)
  | _ => none

/-! ### Helper lemmas -/

/-- Folding `draw` over a shape list composites the concatenation of all
their command lists, in list order. -/
theorem foldl_draw_eq_flatten (f : AnnotationData → List DrawCmd) :
    ∀ (ss : List AnnotationData) (img : QImage),
      ss.foldl (fun i s => i.draw (f s)) img = img.draw (ss.map f).flatten := by
  intro ss
  induction ss with
  | nil => intro img; simp [QImage.draw]
  | cons s rest ih =>
      intro img
      rw [List.foldl_cons, ih]
      simp [QImage.draw, List.append_assoc]

/-! ### Claims -/

/-- Claim C3, counterexample: `create_screenshot_with_info` does not build
the lines `"File: {videoName}"` / `"Time: {timestamp}"` — at the concrete
input `("a", "b")` its result differs from delegating those English lines,
because the source labels the lines `"文件: "` and `"时间: "`. -/
theorem c3_counterexample :
    AnnotationManager.create_screenshot_with_info testManager testMetrics
        testImage "a" "b" none none ≠
      AnnotationManager.add_text_overlay testManager testMetrics testImage
        ["File: a", "Time: b"] none none := by
  decide

/-- Claim C3 as amended: for every image, videoName and timestamp,
`create_screenshot_with_info` builds exactly the two text lines
`"文件: {videoName}"` and `"时间: {timestamp}"` (in that order) and
delegates to `add_text_overlay`, returning its result — including when the
delegated overlay fails internally. -/
theorem c3_screenshot_info_delegates (m : AnnotationManager)
    (metrics : QFont → String → QRect) (image : QImage)
    (video_name timestamp : String) (exc_overlay : Option String) :
    m.create_screenshot_with_info metrics image video_name timestamp
        exc_overlay none =
      m.add_text_overlay metrics image
        ["文件: " ++ video_name, "时间: " ++ timestamp] none exc_overlay ∧
    screenshotInfoLines video_name timestamp =
      ["文件: " ++ video_name, "时间: " ++ timestamp] := by
  exact ⟨rfl, rfl⟩

/-- Claim C4: the session's get-annotated-image operation returns a fresh
copy of the base image with every committed shape's commands composited
onto it in exact append order (insertion order = z-order); the result is an
expression in the widget's `original_image` and `shapes` alone, so it does
not depend on whether or how the live preview was ever painted. -/
theorem c4_finalize_composites (arrow_size : Int) (wdg : AnnotationWidget) :
    AnnotationDialog.get_annotated_image arrow_size wdg =
      { wdg.original_image with
        cmds := wdg.original_image.cmds ++
          (wdg.shapes.map (AnnotationWidget.draw_shape_cmds arrow_size)).flatten } := by
  simpa [QImage.draw, QImage.copy] using
    foldl_draw_eq_flatten (AnnotationWidget.draw_shape_cmds arrow_size)
      wdg.shapes wdg.original_image

/-- Claim C5: `draw_arrow` composites exactly three segments — the shaft
`S → E` and two head wings from `E` to the spec's wing points
`E − L·(cos(θ∓π/6), sin(θ∓π/6))`, `θ = atan2(Ey−Sy, Ex−Sx)`, truncated to
integers — with head length `L = arrow_size`, whose configured default is
10. -/
theorem c5_arrow_geometry (m : AnnotationManager) (image : QImage)
    (S E : QPoint) (color : Option QColor) (line_width : Option Int) :
    (m.draw_arrow image S E color line_width none).1.cmds =
      image.cmds ++
        [.line (QPen.ofColorWidth (color.getD m.default_annotation_color)
            (line_width.getD m.line_width)) S E,
         .line (QPen.ofColorWidth (color.getD m.default_annotation_color)
            (line_width.getD m.line_width)) E (specArrowWings S E m.arrow_size).1,
         .line (QPen.ofColorWidth (color.getD m.default_annotation_color)
            (line_width.getD m.line_width)) E (specArrowWings S E m.arrow_size).2] ∧
    (AnnotationManager.init ConfigStore.empty).arrow_size = 10 := by
  exact ⟨rfl, rfl⟩

/-- Claim C2, counterexample: the one-shot engine `draw_arrow` and the
canvas's arrow rendering (`_draw_shape` / `_draw_arrow_on_painter`) do not
produce pixel-identical command streams for the same inputs — already the
shaft segments are drawn with different pens (square-cap/bevel-join versus
round-cap/round-join). -/
theorem c2_counterexample :
    (testManager.draw_arrow testImage ⟨0, 0⟩ ⟨10, 0⟩ (some colorRed) (some 3)
        none).1.cmds ≠
      testImage.cmds ++
        AnnotationWidget.draw_shape_cmds testManager.arrow_size
          ⟨.arrow, [⟨0, 0⟩, ⟨10, 0⟩], colorRed, 3⟩ := by
  intro h
  simp [AnnotationManager.draw_arrow, AnnotationWidget.draw_shape_cmds,
    arrowCmds, QImage.draw, QImage.copy, QPen.ofColorWidth,
    QPen.roundStyle] at h

/-- Claim C2 as amended: for the same inputs and the same configured arrow
size, the engine's `draw_arrow` and the canvas's arrow rendering draw the
same three segments with identical endpoints and head length, but with
different pen settings — the engine uses `QPen(color, width)` (Qt default
square cap / bevel join), the canvas a round-cap / round-join pen — so the
outputs are not pixel-identical. -/
theorem c2_engine_canvas_arrow (m : AnnotationManager) (image : QImage)
    (S E : QPoint) (c : QColor) (lw : Int) :
    (m.draw_arrow image S E (some c) (some lw) none).1.cmds =
      image.cmds ++ arrowCmds (QPen.ofColorWidth c lw) m.arrow_size S E ∧
    AnnotationWidget.draw_shape_cmds m.arrow_size ⟨.arrow, [S, E], c, lw⟩ =
      arrowCmds (QPen.roundStyle c lw) m.arrow_size S E ∧
    (arrowCmds (QPen.ofColorWidth c lw) m.arrow_size S E).map lineEndpoints =
      (arrowCmds (QPen.roundStyle c lw) m.arrow_size S E).map lineEndpoints ∧
    QPen.ofColorWidth c lw ≠ QPen.roundStyle c lw := by
  refine ⟨rfl, rfl, rfl, ?_⟩
  intro h
  simp [QPen.ofColorWidth, QPen.roundStyle] at h

/-- The `enumerate` loop of `add_text_overlay` matches the spec's
index-based layout formula, for any starting index. -/
theorem overlayLoop_eq_enumFrom (metrics : QFont → String → QRect)
    (font : QFont) (text_color : QColor) (font_size : Int) :
    ∀ (lines : List String) (i : Nat),
      overlayLoop metrics font text_color (font_size + 5) i lines =
        ((lines.enumFrom i).map fun p =>
          specOverlayLine metrics font text_color font_size p.1 p.2).flatten := by
  intro lines
  induction lines with
  | nil => intro i; rfl
  | cons l rest ih =>
      intro i
      show overlayLineCmds metrics font text_color (font_size + 5) i l ++
          overlayLoop metrics font text_color (font_size + 5) (i + 1) rest = _
      rw [ih]
      rfl

/-- Claim C6, counterexample: at a concrete non-blank line whose bounding
box is 20px tall, the background plate drawn by `add_text_overlay` is 25px
tall — the bounding box plus a 5px horizontal pad AND 5px of extra height,
not the claim's plate sized to the bbox with only a horizontal pad. -/
theorem c6_counterexample :
    (AnnotationManager.add_text_overlay testManager testMetrics testImage
        ["ab"] none none).1.cmds =
      [.fillRect ⟨5, 11, 26, 25⟩ ⟨0, 0, 0, 128⟩,
       .text ⟨10, 31⟩ ⟨"Arial", 16, 75⟩ colorWhite "ab"] ∧
    (⟨5, 11, 26, 25⟩ : QRect) ≠
      claimPlateRect 31 (testMetrics ⟨"Arial", 16, 75⟩ "ab") := by
  exact ⟨by decide, by decide⟩

/-- Claim C6 as amended: `add_text_overlay` draws each non-blank line `i`
(0-indexed over the full list) at baseline `y = 10 + (i+1)·(fontSize+5)`
with an rgba(0,0,0,128) background plate sized to the text bounding box
plus a 5px horizontal pad on each side and 5px of extra height at the
bottom, while blank or whitespace-only lines produce no plate and no text
yet still consume their index slot. -/
theorem c6_text_overlay_layout (m : AnnotationManager)
    (metrics : QFont → String → QRect) (image : QImage)
    (text_lines : List String) (font_size : Option Int) :
    m.add_text_overlay metrics image text_lines font_size none =
      ({ image with cmds := image.cmds ++
          ((text_lines.enum.map fun p =>
            specOverlayLine metrics ⟨"Arial", font_size.getD m.font_size, 75⟩
              m.font_color (font_size.getD m.font_size) p.1 p.2).flatten) },
       []) := by
  show (_, ([] : List AnnEvent)) = _
  rw [Prod.mk.injEq]
  refine ⟨?_, rfl⟩
  show QImage.draw _ (overlayLoop metrics _ m.font_color
    (font_size.getD m.font_size + 5) 0 text_lines) = _
  rw [overlayLoop_eq_enumFrom]
  rfl

/-- Spec §8's view of the freehand segments: the pairs of consecutive
points in input order, each drawn as one line. -/
def specConsecutiveSegs (pen : QPen) (points : List QPoint) : List DrawCmd :=
  (points.zip points.tail).map fun pq => .line pen pq.1 pq.2

/-- Unfolding one step of the freehand drawing loop. -/
theorem freehandSegs_cons_cons (pen : QPen) (p0 p1 : QPoint)
    (rest : List QPoint) :
    freehandSegs pen (p0 :: p1 :: rest) =
      .line pen p0 p1 :: freehandSegs pen (p1 :: rest) := by
  unfold freehandSegs
  simp [List.range_succ_eq_map, List.map_map]

/-- The freehand loop draws exactly the consecutive pairs of the input, in
input order. -/
theorem freehandSegs_eq_consecutive (pen : QPen) :
    ∀ points : List QPoint,
      freehandSegs pen points = specConsecutiveSegs pen points
  | [] => rfl
  | [_] => rfl
  | p0 :: p1 :: rest => by
      rw [freehandSegs_cons_cons, freehandSegs_eq_consecutive pen (p1 :: rest)]
      rfl

/-- Claim C7: `draw_freehand` with fewer than 2 points returns the input
image by value with no events (a silent no-op: no failure notification);
with `n ≥ 2` points it draws exactly the `n − 1` segments joining
consecutive points in input order on a copy of the input image. -/
theorem c7_draw_freehand (m : AnnotationManager) (image : QImage)
    (points : List QPoint) (color : Option QColor) (line_width : Option Int) :
    (points.length < 2 →
      m.draw_freehand image points color line_width none = (image, [])) ∧
    (2 ≤ points.length →
      m.draw_freehand image points color line_width none =
        (image.draw (specConsecutiveSegs
            (QPen.roundStyle (color.getD m.default_annotation_color)
              (line_width.getD m.line_width)) points),
         [.annotation_added "freehand"])) ∧
    (specConsecutiveSegs
        (QPen.roundStyle (color.getD m.default_annotation_color)
          (line_width.getD m.line_width)) points).length =
      points.length - 1 := by
  refine ⟨?_, ?_, ?_⟩
  · intro h
    simp [AnnotationManager.draw_freehand, h]
  · intro h
    have h' : ¬ points.length < 2 := by omega
    simp [AnnotationManager.draw_freehand, h', QImage.copy,
      freehandSegs_eq_consecutive]
  · simp [specConsecutiveSegs]

/-- Witness for C7 at the concrete inputs `[(0,0)]` (a silent no-op) and
`[(0,0), (1,1), (2,0)]` (two segments drawn). -/
theorem c7_witness :
    ([⟨0, 0⟩] : List QPoint).length < 2 ∧
    testManager.draw_freehand testImage [⟨0, 0⟩] none none none =
      (testImage, []) ∧
    2 ≤ ([⟨0, 0⟩, ⟨1, 1⟩, ⟨2, 0⟩] : List QPoint).length ∧
    testManager.draw_freehand testImage [⟨0, 0⟩, ⟨1, 1⟩, ⟨2, 0⟩] none none
        none =
      (testImage.draw (specConsecutiveSegs
          (QPen.roundStyle ((none : Option QColor).getD
              testManager.default_annotation_color)
            ((none : Option Int).getD testManager.line_width))
          [⟨0, 0⟩, ⟨1, 1⟩, ⟨2, 0⟩]),
       [.annotation_added "freehand"]) :=
  ⟨by decide,
   (c7_draw_freehand testManager testImage [⟨0, 0⟩] none none).1 (by decide),
   by decide,
   (c7_draw_freehand testManager testImage [⟨0, 0⟩, ⟨1, 1⟩, ⟨2, 0⟩] none
       none).2.1 (by decide)⟩

/-- Claim C8: every public drawing/compositing operation is
exception-safe — whenever its `try:` body raises (`exc = some msg`), the
operation returns the original input image unchanged together with a
single failure notification, never propagating the exception (the model
functions are total); and the successful result is always the input
image's pixel buffer with commands appended onto a copy — the input image
itself is never mutated.  (`draw_freehand`'s sub-2-point early return
precedes the fallible painting work, so it stays a silent no-op.) -/
theorem c8_exception_safety (m : AnnotationManager)
    (metrics : QFont → String → QRect) (image : QImage)
    (text_lines : List String) (font_size : Option Int) (S E : QPoint)
    (color : Option QColor) (line_width : Option Int) (filled : Bool)
    (points : List QPoint) (video_name timestamp msg : String) :
    m.add_text_overlay metrics image text_lines font_size (some msg) =
      (image, [.annotation_failed ("添加文本叠加失败: " ++ msg)]) ∧
    m.create_screenshot_with_info metrics image video_name timestamp none
        (some msg) =
      (image, [.annotation_failed ("创建带信息截图失败: " ++ msg)]) ∧
    m.draw_arrow image S E color line_width (some msg) =
      (image, [.annotation_failed ("绘制箭头失败: " ++ msg)]) ∧
    m.draw_rectangle image S E color line_width filled (some msg) =
      (image, [.annotation_failed ("绘制矩形失败: " ++ msg)]) ∧
    m.draw_freehand image points color line_width (some msg) =
      (image,
       if points.length < 2 then []
       else [.annotation_failed ("绘制自由线条失败: " ++ msg)]) ∧
    (∃ ex, (m.add_text_overlay metrics image text_lines font_size none).1 =
      { image with cmds := image.cmds ++ ex }) ∧
    (∃ ex, (m.create_screenshot_with_info metrics image video_name timestamp
        none none).1 = { image with cmds := image.cmds ++ ex }) ∧
    (∃ ex, (m.draw_arrow image S E color line_width none).1 =
      { image with cmds := image.cmds ++ ex }) ∧
    (∃ ex, (m.draw_rectangle image S E color line_width filled none).1 =
      { image with cmds := image.cmds ++ ex }) ∧
    (∃ ex, (m.draw_freehand image points color line_width none).1 =
      { image with cmds := image.cmds ++ ex }) := by
  refine ⟨rfl, rfl, rfl, rfl, ?_, ⟨_, rfl⟩, ⟨_, rfl⟩, ⟨_, rfl⟩, ⟨_, rfl⟩, ?_⟩
  · by_cases h : points.length < 2 <;>
      simp [AnnotationManager.draw_freehand, h]
  · by_cases h : points.length < 2
    · refine ⟨[], ?_⟩
      simp [AnnotationManager.draw_freehand, h]
    · refine ⟨freehandSegs
          (QPen.roundStyle (color.getD m.default_annotation_color)
            (line_width.getD m.line_width)) points, ?_⟩
      simp [AnnotationManager.draw_freehand, h, QImage.copy, QImage.draw]

/-- Claim C10: pointer gestures are left-button-only — a press with any
other button never enters the drawing state or creates an in-progress
shape (the widget is unchanged, whatever the current tool), and a release
with any other button never commits the in-progress shape, leaves the
drawing state, or emits an event. -/
theorem c10_left_button_only (wdg : AnnotationWidget) (b : MouseButton)
    (pos : QPoint) (h : b ≠ .left) :
    wdg.mousePressEvent b pos = wdg ∧
    wdg.mouseReleaseEvent b pos = (wdg, []) := by
  constructor
  · simp [AnnotationWidget.mousePressEvent, h]
  · simp [AnnotationWidget.mouseReleaseEvent, h]

/-- Witness for C10: a right-button press and release on a fresh widget
leave it untouched. -/
theorem c10_witness :
    (MouseButton.right ≠ MouseButton.left) ∧
    testWidget100.mousePressEvent .right ⟨3, 4⟩ = testWidget100 ∧
    testWidget100.mouseReleaseEvent .right ⟨3, 4⟩ = (testWidget100, []) :=
  ⟨by decide,
   (c10_left_button_only testWidget100 .right ⟨3, 4⟩ (by decide)).1,
   (c10_left_button_only testWidget100 .right ⟨3, 4⟩ (by decide)).2⟩

/-- Claim C9, counterexample: on a fresh 100x100 widget (scale 1.0),
`fit_to_size(1, 1)` stores scale 0.05, not the claim's
`min(maxW/imageW, maxH/imageH)` clamped to at most 1.0 (which is 0.01
here, positive, so the claim's 0.1 substitution does not apply): the
stored value is additionally clamped to the 0.05 floor of
`set_scale_factor`. -/
theorem c9_counterexample :
    (testWidget100.fit_to_size 1 1).scale_factor = 1/20 ∧
    specFitScale 100 100 1 1 = 1/100 ∧
    (testWidget100.fit_to_size 1 1).scale_factor ≠
      specFitScale 100 100 1 1 := by
  have h19 : |(19 : ℚ)/20| = 19/20 := abs_of_nonneg (by norm_num)
  have h1 : (testWidget100.fit_to_size 1 1).scale_factor = 1/20 := by
    show (AnnotationWidget.set_scale_factor _ _).scale_factor = 1/20
    rw [AnnotationWidget.set_scale_factor]
    norm_num [min_def, testWidget100, AnnotationWidget.init, QImage.copy, h19]
  have h2 : specFitScale 100 100 1 1 = 1/100 := by
    rw [specFitScale]
    norm_num [min_def]
  refine ⟨h1, h2, ?_⟩
  rw [h1, h2]
  norm_num

/-- Claim C9 as amended: `set_scale_factor` clamps the requested factor to
[0.05, 8.0] but stores it only when the clamped value differs from the
current scale by more than 1e-3 (so 0.02 becomes 0.05 and 12.0 becomes 8.0
from a fresh widget); `fit_to_size` on positive dimensions computes
`min(maxW/imageW, maxH/imageH)` capped at 1.0 (substituting 0.1 when
non-positive — always a value ≤ 1) and routes it through
`set_scale_factor`, whose 0.05 floor and 1e-3 dead-band also apply; an
image already fitting the box keeps scale 1.0 (no upscaling). -/
theorem c9_scaling (wdg : AnnotationWidget) (f : ℚ) (mw mh : Int) :
    (wdg.set_scale_factor f).scale_factor =
      (if |wdg.scale_factor - specClampScale f| > 1/1000
       then specClampScale f else wdg.scale_factor) ∧
    (testWidget100.set_scale_factor (1/50)).scale_factor = 1/20 ∧
    (testWidget100.set_scale_factor 12).scale_factor = 8 ∧
    specFitScale wdg.original_image.width wdg.original_image.height mw mh
      ≤ 1 ∧
    (wdg.original_image.width ≠ 0 → wdg.original_image.height ≠ 0 →
      wdg.fit_to_size mw mh =
        wdg.set_scale_factor
          (specFitScale wdg.original_image.width wdg.original_image.height
            mw mh)) ∧
    (0 < wdg.original_image.width → 0 < wdg.original_image.height →
      wdg.original_image.width ≤ mw → wdg.original_image.height ≤ mh →
      wdg.scale_factor = 1 → (wdg.fit_to_size mw mh).scale_factor = 1) := by
  have hdelegate : wdg.original_image.width ≠ 0 →
      wdg.original_image.height ≠ 0 →
      wdg.fit_to_size mw mh =
        wdg.set_scale_factor
          (specFitScale wdg.original_image.width wdg.original_image.height
            mw mh) := by
    intro h1 h2
    rw [AnnotationWidget.fit_to_size, if_neg]
    · rfl
    · rintro (h | h)
      · exact h1 h
      · exact h2 h
  refine ⟨?_, ?_, ?_, ?_, hdelegate, ?_⟩
  · rw [AnnotationWidget.set_scale_factor, specClampScale]
    split <;> rfl
  · have h19 : |(19 : ℚ)/20| = 19/20 := abs_of_nonneg (by norm_num)
    rw [AnnotationWidget.set_scale_factor]
    norm_num [min_def, max_def, testWidget100, AnnotationWidget.init,
      QImage.copy, h19]
  · have h7 : |(-7 : ℚ)| = 7 := by
      rw [abs_neg]
      exact abs_of_nonneg (by norm_num)
    rw [AnnotationWidget.set_scale_factor]
    norm_num [min_def, max_def, testWidget100, AnnotationWidget.init,
      QImage.copy, h7]
  · simp only [specFitScale]
    split
    · norm_num
    · exact min_le_left _ _
  · intro hw hh hmw hmh hs
    have hiw : (0 : ℚ) < (wdg.original_image.width : ℚ) := by
      exact_mod_cast hw
    have hih : (0 : ℚ) < (wdg.original_image.height : ℚ) := by
      exact_mod_cast hh
    have hq1 : (1 : ℚ) ≤ (mw : ℚ) / (wdg.original_image.width : ℚ) :=
      (one_le_div hiw).mpr (by exact_mod_cast hmw)
    have hq2 : (1 : ℚ) ≤ (mh : ℚ) / (wdg.original_image.height : ℚ) :=
      (one_le_div hih).mpr (by exact_mod_cast hmh)
    have hv : specFitScale wdg.original_image.width
        wdg.original_image.height mw mh = 1 := by
      simp only [specFitScale]
      rw [min_eq_left (le_min hq1 hq2)]
      norm_num
    rw [hdelegate (ne_of_gt hw) (ne_of_gt hh), hv,
      AnnotationWidget.set_scale_factor]
    norm_num [min_def, max_def, hs]

/-- Witness for C9 at a 100x100 widget fitted into a 200x200 box: the
delegation to `set_scale_factor` holds and the scale stays 1 (no
upscaling). -/
theorem c9_witness :
    testWidget100.original_image.width ≠ 0 ∧
    testWidget100.original_image.height ≠ 0 ∧
    0 < testWidget100.original_image.width ∧
    0 < testWidget100.original_image.height ∧
    testWidget100.original_image.width ≤ 200 ∧
    testWidget100.original_image.height ≤ 200 ∧
    testWidget100.scale_factor = 1 ∧
    testWidget100.fit_to_size 200 200 =
      testWidget100.set_scale_factor
        (specFitScale testWidget100.original_image.width
          testWidget100.original_image.height 200 200) ∧
    (testWidget100.fit_to_size 200 200).scale_factor = 1 :=
  ⟨by decide, by decide, by decide, by decide, by decide, by decide,
   by norm_num [testWidget100, AnnotationWidget.init, QImage.copy],
   (c9_scaling testWidget100 1 200 200).2.2.2.2.1 (by decide) (by decide),
   (c9_scaling testWidget100 1 200 200).2.2.2.2.2 (by decide) (by decide)
     (by decide) (by decide)
     (by norm_num [testWidget100, AnnotationWidget.init, QImage.copy])⟩

/-- Claim C1, counterexample: a freehand click-and-release without any
pointer move stores a shape with exactly ONE point in the committed shape
list — the release handler appends the in-progress shape unconditionally,
so a shape with fewer than 2 points can be stored. -/
theorem c1_counterexample :
    ((((AnnotationWidget.init ConfigStore.empty
          ⟨100, 100, 0, []⟩).set_tool .freehand).mousePressEvent .left
        ⟨5, 5⟩).mouseReleaseEvent .left ⟨5, 5⟩).1.shapes.map
      (fun s => s.points.length) = [1] := by
  decide

/-- A drag: folding a sequence of pointer-move events over the widget. -/
def AnnotationWidget.applyMoves (wdg : AnnotationWidget)
    (ps : List QPoint) : AnnotationWidget :=
  ps.foldl AnnotationWidget.mouseMoveEvent wdg

/-- A pointer move never changes the drawing flag, the tool, the committed
shapes or the scale factor. -/
theorem mouseMove_preserves (wdg : AnnotationWidget) (pos : QPoint) :
    (wdg.mouseMoveEvent pos).drawing = wdg.drawing ∧
    (wdg.mouseMoveEvent pos).current_tool = wdg.current_tool ∧
    (wdg.mouseMoveEvent pos).shapes = wdg.shapes ∧
    (wdg.mouseMoveEvent pos).scale_factor = wdg.scale_factor := by
  rw [AnnotationWidget.mouseMoveEvent]
  split
  · split <;> exact ⟨rfl, rfl, rfl, rfl⟩
  · exact ⟨rfl, rfl, rfl, rfl⟩

/-- With any non-freehand tool, a pointer move leaves the in-progress
shape untouched. -/
theorem mouseMove_shape_notFreehand (wdg : AnnotationWidget) (pos : QPoint)
    (h : wdg.current_tool ≠ .freehand) :
    (wdg.mouseMoveEvent pos).current_shape = wdg.current_shape := by
  rw [AnnotationWidget.mouseMoveEvent]
  split <;> rfl

/-- With the freehand tool while drawing, a pointer move appends the
converted position to the in-progress shape. -/
theorem mouseMove_shape_freehand (wdg : AnnotationWidget) (pos : QPoint)
    (s : AnnotationData) (hd : wdg.drawing = true)
    (ht : wdg.current_tool = .freehand) (hs : wdg.current_shape = some s) :
    (wdg.mouseMoveEvent pos).current_shape =
      some { s with points := s.points ++ [wdg.toImagePos pos] } := by
  rw [AnnotationWidget.mouseMoveEvent,
    if_pos ⟨hd, by rw [ht]; exact fun hcon => nomatch hcon⟩, if_pos ht]
  show Option.map _ wdg.current_shape = _
  rw [hs]
  rfl

/-- Converting a display position to image space depends only on the scale
factor. -/
theorem toImagePos_congr (w1 w2 : AnnotationWidget)
    (h : w1.scale_factor = w2.scale_factor) (pos : QPoint) :
    w1.toImagePos pos = w2.toImagePos pos := by
  rw [AnnotationWidget.toImagePos, AnnotationWidget.toImagePos, h]

/-- A whole drag never changes the drawing flag, the tool, the committed
shapes or the scale factor. -/
theorem applyMoves_preserves :
    ∀ (ps : List QPoint) (wdg : AnnotationWidget),
      (wdg.applyMoves ps).drawing = wdg.drawing ∧
      (wdg.applyMoves ps).current_tool = wdg.current_tool ∧
      (wdg.applyMoves ps).shapes = wdg.shapes ∧
      (wdg.applyMoves ps).scale_factor = wdg.scale_factor
  | [], _ => ⟨rfl, rfl, rfl, rfl⟩
  | p :: ps, wdg => by
      have h1 := mouseMove_preserves wdg p
      have h2 := applyMoves_preserves ps (wdg.mouseMoveEvent p)
      exact ⟨h2.1.trans h1.1, h2.2.1.trans h1.2.1,
        h2.2.2.1.trans h1.2.2.1, h2.2.2.2.trans h1.2.2.2⟩

/-- With any non-freehand tool, a whole drag leaves the in-progress shape
untouched. -/
theorem applyMoves_shape_notFreehand :
    ∀ (ps : List QPoint) (wdg : AnnotationWidget),
      wdg.current_tool ≠ .freehand →
      (wdg.applyMoves ps).current_shape = wdg.current_shape
  | [], _, _ => rfl
  | p :: ps, wdg, h => by
      have h1 := mouseMove_preserves wdg p
      have h2 := applyMoves_shape_notFreehand ps (wdg.mouseMoveEvent p)
        (by rw [h1.2.1]; exact h)
      exact h2.trans (mouseMove_shape_notFreehand wdg p h)

/-- With the freehand tool while drawing, a whole drag appends exactly the
converted move positions, in order, to the in-progress shape. -/
theorem applyMoves_shape_freehand :
    ∀ (ps : List QPoint) (wdg : AnnotationWidget) (s : AnnotationData),
      wdg.drawing = true → wdg.current_tool = .freehand →
      wdg.current_shape = some s →
      (wdg.applyMoves ps).current_shape =
        some { s with points := s.points ++ ps.map wdg.toImagePos }
  | [], wdg, s, _, _, hs => by
      show wdg.current_shape = _
      rw [hs]
      simp
  | p :: ps, wdg, s, hd, ht, hs => by
      have h1 := mouseMove_preserves wdg p
      have hstep := mouseMove_shape_freehand wdg p s hd ht hs
      have ih := applyMoves_shape_freehand ps (wdg.mouseMoveEvent p)
        { s with points := s.points ++ [wdg.toImagePos p] }
        (h1.1.trans hd) (h1.2.1.trans ht) hstep
      have htp : ∀ q ∈ ps,
          (wdg.mouseMoveEvent p).toImagePos q = wdg.toImagePos q :=
        fun q _ => toImagePos_congr _ _ h1.2.2.2 q
      show ((wdg.mouseMoveEvent p).applyMoves ps).current_shape = _
      rw [ih, List.map_congr_left htp]
      simp

/-- Claim C1 as amended: for every pointer gesture (left press with a tool
selected, any drag, left release) the in-progress shape is appended to the
committed shape list unconditionally: Arrow and Rectangle shapes get
exactly 2 points (start, end), while a Freehand shape gets 1 + (number of
move events) points — so a Freehand click without a drag stores a 1-point
shape, and the stored-shape guarantee is only ≥ 1 point, not ≥ 2. -/
theorem c1_gesture_commits (wdg : AnnotationWidget) (t : AnnotationTool)
    (p q : QPoint) (ps : List QPoint)
    (htool : wdg.current_tool = t) (hne : t ≠ .none) :
    ∃ s : AnnotationData,
      (((wdg.mousePressEvent .left p).applyMoves ps).mouseReleaseEvent .left
          q).1.shapes = wdg.shapes ++ [s] ∧
      s.tool = t ∧
      s.points.length = (if t = .freehand then ps.length + 1 else 2) ∧
      1 ≤ s.points.length := by
  have hpress : wdg.mousePressEvent .left p =
      { wdg with
        drawing := true
        start_point := wdg.toImagePos p
        end_point := wdg.toImagePos p
        current_shape := some ⟨wdg.current_tool, [wdg.toImagePos p],
          wdg.current_color, wdg.line_width⟩ } := by
    rw [AnnotationWidget.mousePressEvent,
      if_pos ⟨rfl, by rw [htool]; exact hne⟩]
  set W := wdg.mousePressEvent .left p with hW
  have hinv := applyMoves_preserves ps W
  have hWdraw : W.drawing = true := by rw [hpress]
  have hWtool : W.current_tool = t := by rw [hpress]; exact htool
  have hWscale : W.scale_factor = wdg.scale_factor := by rw [hpress]
  have hWshapes : W.shapes = wdg.shapes := by rw [hpress]
  have hWshape : W.current_shape =
      some ⟨t, [wdg.toImagePos p], wdg.current_color, wdg.line_width⟩ := by
    rw [hpress, htool]
  set W2 := W.applyMoves ps with hW2
  have hd2 : W2.drawing = true := hinv.1.trans hWdraw
  have ht2 : W2.current_tool = t := hinv.2.1.trans hWtool
  have hs2 : W2.shapes = wdg.shapes := hinv.2.2.1.trans hWshapes
  rcases t with _ | _ | _ | _
  · exact absurd rfl hne
  · have hcs2 : W2.current_shape =
        some ⟨.arrow, [wdg.toImagePos p], wdg.current_color,
          wdg.line_width⟩ :=
      (applyMoves_shape_notFreehand ps W
        (by rw [hWtool]; exact fun hcon => nomatch hcon)).trans hWshape
    refine ⟨⟨.arrow, [wdg.toImagePos p, W2.toImagePos q],
      wdg.current_color, wdg.line_width⟩, ?_, rfl, rfl, by simp⟩
    rw [AnnotationWidget.mouseReleaseEvent, if_pos ⟨rfl, hd2⟩]
    simp [ht2, hcs2, hs2]
  · have hcs2 : W2.current_shape =
        some ⟨.rectangle, [wdg.toImagePos p], wdg.current_color,
          wdg.line_width⟩ :=
      (applyMoves_shape_notFreehand ps W
        (by rw [hWtool]; exact fun hcon => nomatch hcon)).trans hWshape
    refine ⟨⟨.rectangle, [wdg.toImagePos p, W2.toImagePos q],
      wdg.current_color, wdg.line_width⟩, ?_, rfl, rfl, by simp⟩
    rw [AnnotationWidget.mouseReleaseEvent, if_pos ⟨rfl, hd2⟩]
    simp [ht2, hcs2, hs2]
  · have hmap : ps.map W.toImagePos = ps.map wdg.toImagePos :=
      List.map_congr_left fun r _ => toImagePos_congr _ _ hWscale r
    have hcs2 : W2.current_shape =
        some ⟨.freehand, wdg.toImagePos p :: ps.map wdg.toImagePos,
          wdg.current_color, wdg.line_width⟩ := by
      rw [applyMoves_shape_freehand ps W _ hWdraw hWtool hWshape, hmap]
      rfl
    refine ⟨⟨.freehand, wdg.toImagePos p :: ps.map wdg.toImagePos,
      wdg.current_color, wdg.line_width⟩, ?_, rfl, by simp, by simp⟩
    rw [AnnotationWidget.mouseReleaseEvent, if_pos ⟨rfl, hd2⟩]
    simp [ht2, hcs2, hs2]

/-- Witness for C1: an arrow gesture (press at (3,3), one move, release at
(9,9)) on a fresh widget with the arrow tool commits exactly one 2-point
shape. -/
theorem c1_witness :
    (testWidget100.set_tool .arrow).current_tool = .arrow ∧
    AnnotationTool.arrow ≠ .none ∧
    ∃ s : AnnotationData,
      ((((testWidget100.set_tool .arrow).mousePressEvent .left
          ⟨3, 3⟩).applyMoves [⟨6, 6⟩]).mouseReleaseEvent .left
          ⟨9, 9⟩).1.shapes = (testWidget100.set_tool .arrow).shapes ++ [s] ∧
      s.tool = .arrow ∧
      s.points.length =
        (if AnnotationTool.arrow = .freehand then
          ([⟨6, 6⟩] : List QPoint).length + 1 else 2) ∧
      1 ≤ s.points.length :=
  ⟨by decide, by decide,
   c1_gesture_commits (testWidget100.set_tool .arrow) .arrow ⟨3, 3⟩ ⟨9, 9⟩
     [⟨6, 6⟩] (by decide) (by decide)⟩
